import Mathlib

/-!
Verification development for the Flask backend in src/app.py
(the "AI all-in-one tool" web application).

Modelling conventions:
* Python strings that are scanned character by character are modelled as
  `PyStr := List Char`; strings only compared for equality are modelled as
  Lean `String`.
* The process-wide `global_stats` dict (a map with a fixed key set) is
  modelled as a function `String → Nat` together with the explicit key list
  `statKeys`; `increment_stat` only touches recognized keys, mirroring the
  `if field in global_stats` membership test.
* The Flask session value `session.get('is_admin', ...)` is modelled as an
  `Option Bool` (absent key = `none`).
* Fallible external calls (the Groq completion, psutil sampling, file
  deletion) are modelled by `Option` results or explicit success oracles;
  the handlers are total functions, mirroring the fact that the Python code
  catches these failures and never lets them escape.
* Filesystem time stamps are modelled as integers (seconds); the Python code
  compares `now - mtime > 1800` on floats, and the claims only concern the
  strict/non-strict split at 1800 which the integer model preserves.
-/

/-- Python strings scanned character by character, as lists of characters. -/
abbrev PyStr := List Char

/-! ## Usage counters (src/app.py lines 42-50) -/

/-- The fixed key set of the `global_stats` dict (src/app.py lines 42-46). -/
def statKeys : List String :=
  ["text_gen", "audio_gen", "transcribe", "pdf_gen", "chat_msgs",
   "code_review", "quiz_gen", "file_conv", "compression", "vid_audio"]

/-- The initial, zeroed counter map. -/
def initStats : String → Nat := fun _ => 0

/-- Embedding of `increment_stat` (src/app.py lines 48-50): add one to the
named counter when the key is in the dict, otherwise leave the map alone
(a total function: no error is raised on unrecognized keys). -/
def incrementStat (field : String) (g : String → Nat) : String → Nat :=
  if field ∈ statKeys then fun k => if k = field then g k + 1 else g k else g

/-- Iterate a state transformer `n` times. -/
def applyN {α : Type} (f : α → α) : Nat → α → α
  | 0, a => a
  | n + 1, a => f (applyN f n a)

/-! ## Auth (src/app.py lines 113-128) -/

/-- Result of the `/login` handler: the new session value of `is_admin`,
the JSON `success` flag and the HTTP status. -/
structure LoginOut where
  sess : Option Bool
  success : Bool
  status : Nat
deriving DecidableEq

/-- Embedding of `login` (src/app.py lines 113-119): sets
`session['is_admin'] = True` iff both fields equal the configured
credentials, else answers 401 and leaves the session untouched. -/
def loginR (adminUser adminPass username password : String) (s : Option Bool) : LoginOut :=
  if username = adminUser ∧ password = adminPass then ⟨some true, true, 200⟩
  else ⟨s, false, 401⟩

/-- Embedding of `logout` (src/app.py lines 121-124): `session.pop('is_admin', None)`. -/
def logoutR (_s : Option Bool) : Option Bool := none

/-- Embedding of `check_auth` (src/app.py lines 126-128):
`session.get('is_admin', False)`. -/
def checkAuth (s : Option Bool) : Bool := s.getD false

/-! ## Pure-text generation handlers (src/app.py lines 210-250) -/

/-- JSON envelope of the pure-text handlers: HTTP status, `success` flag and
the generated-text field. -/
structure TextResp where
  status : Nat
  success : Bool
  body : String
deriving DecidableEq

/-- Python's `res if res else dflt` on an optional string (`None` and the
empty string are falsy). -/
def pyOrElse (res : Option String) (dflt : String) : String :=
  match res with
  | none => dflt
  | some s => if s = "" then dflt else s

/-- Embedding of `get_groq_response` (src/app.py lines 80-98): returns
`none` when the API key is unset, otherwise the provider's completion
(itself `none` when the provider call failed). -/
def getGroqResponse (apiKey : Option String) (completion : Option String) : Option String :=
  match apiKey with
  | none => none
  | some _ => completion

/-- Embedding of `generate_minutes` (src/app.py lines 210-218), given the
completion result. -/
def generateMinutesR (res : Option String) : TextResp :=
  ⟨200, true, pyOrElse res "AI Service Busy"⟩

/-- Embedding of `generate_email` (src/app.py lines 220-229), given the
completion result. -/
def generateEmailR (res : Option String) : TextResp :=
  ⟨200, true, pyOrElse res "AI Service Busy"⟩

/-- Embedding of `review_code` (src/app.py lines 231-239), given the
completion result. -/
def reviewCodeR (res : Option String) : TextResp :=
  ⟨200, true, pyOrElse res "AI Service Busy"⟩

/-- Embedding of `translate` (src/app.py lines 241-250), given the
completion result; note the fallback string in the source is "Error". -/
def translateR (res : Option String) : TextResp :=
  ⟨200, true, pyOrElse res "Error"⟩

/-! ## Stats and report endpoints (src/app.py lines 131-147) -/

/-- JSON payload of `GET /api/stats`. -/
structure StatsResp where
  status : Nat
  cpu : Nat
  ram : Nat
  usage : String → Nat

/-- Embedding of `get_stats` (src/app.py lines 131-142): cpu and ram start
at 0 and are sampled only for an admin session (each sample is an `Option`
because the psutil calls sit in a `try`/`except` that leaves 0 on failure);
the `usage` field is always the live `global_stats` map. -/
def getStatsR (sess : Option Bool) (cpuSample ramSample : Option Nat)
    (usage : String → Nat) : StatsResp :=
  if sess.getD false then ⟨200, cpuSample.getD 0, ramSample.getD 0, usage⟩
  else ⟨200, 0, 0, usage⟩

/-- Embedding of the auth gate of `download_report` (src/app.py lines
144-147): HTTP status 401 unless `session.get('is_admin')` is truthy. -/
def downloadReportStatus (sess : Option Bool) : Nat :=
  if sess.getD false then 200 else 401

/-! ## Chat history (src/app.py lines 179-203) -/

/-- One entry of the session's `chat_history` list. -/
structure ChatMsg where
  role : String
  content : String
deriving DecidableEq

/-- The user-turn entry appended by `chat` (src/app.py line 196). -/
def userMsg (m : String) : ChatMsg := ⟨"user", m⟩

/-- The assistant-turn entry appended by `chat` (src/app.py line 197). -/
def asstMsg (r : String) : ChatMsg := ⟨"assistant", r⟩

/-- Embedding of the history update of a successful `chat` request
(src/app.py lines 196-199): append the two new turns, then
`history[-6:]` when the list exceeds 6 entries. -/
def chatStep (history : List ChatMsg) (msg reply : String) : List ChatMsg :=
  let h := history ++ [userMsg msg, asstMsg reply]
  if 6 < h.length then h.drop (h.length - 6) else h

/-! ## Cleanup sweeper (src/app.py lines 53-65) -/

/-- A directory entry of the static folder: name, modification time in
seconds, and whether it is a regular file. -/
structure FileInfo where
  name : String
  mtime : Int
  isFile : Bool
deriving DecidableEq

/-- Embedding of one pass of `cleanup_old_files` (src/app.py lines 53-65):
every regular file with `now - mtime > 1800` whose deletion succeeds
(`delOk`) disappears; everything else stays. The function is total: the
`try`/`except` around `os.remove` and around the directory walk means a
failed deletion just leaves the file in place and no error propagates. -/
def cleanupOldFiles (delOk : String → Bool) (now : Int) (files : List FileInfo) :
    List FileInfo :=
  files.filter fun f => !(f.isFile && decide (1800 < now - f.mtime) && delOk f.name)

/-! ## Fast-fail validation phase of the handlers (src/app.py, various) -/

/-- A fast-fail response emitted before any downstream capability is
invoked: HTTP status and JSON `success` flag. -/
structure EarlyReject where
  status : Nat
  success : Bool
deriving DecidableEq

/-- Validation phase of `chat` (src/app.py line 183): empty message is
rejected with 400. -/
def chatValidate (message : String) : Option EarlyReject :=
  if message = "" then some ⟨400, false⟩ else none

/-- Validation phase of `text_to_audio` (src/app.py line 400): empty text is
rejected with 400. -/
def textToAudioValidate (text : String) : Option EarlyReject :=
  if text = "" then some ⟨400, false⟩ else none

/-- Validation phase of `audio_to_text` (src/app.py line 414): missing
upload is rejected with 400. -/
def audioToTextValidate (hasFile : Bool) : Option EarlyReject :=
  if hasFile then none else some ⟨400, false⟩

/-- Validation phase of `video_to_audio` (src/app.py line 451). -/
def videoToAudioValidate (hasFile : Bool) : Option EarlyReject :=
  if hasFile then none else some ⟨400, false⟩

/-- Validation phase of `convert_file` (src/app.py line 475). -/
def convertFileValidate (hasFile : Bool) : Option EarlyReject :=
  if hasFile then none else some ⟨400, false⟩

/-- Validation phase of `compress_image` (src/app.py line 490). -/
def compressImageValidate (hasFile : Bool) : Option EarlyReject :=
  if hasFile then none else some ⟨400, false⟩

/-- Validation phase of `generate_minutes` (src/app.py lines 210-218): the
source performs no check; `request.form.get('notes', '')` defaults and the
handler always proceeds to the completion call. -/
def generateMinutesValidate (_notes : String) : Option EarlyReject := none

/-- Validation phase of `generate_email` (src/app.py lines 220-229): no check. -/
def generateEmailValidate (_recipient _topic : String) : Option EarlyReject := none

/-- Validation phase of `review_code` (src/app.py lines 231-239): no check. -/
def reviewCodeValidate (_code : String) : Option EarlyReject := none

/-- Validation phase of `translate` (src/app.py lines 241-250): no check. -/
def translateValidate (_text _targetLanguage : String) : Option EarlyReject := none

/-- Validation phase of `generate_quiz` (src/app.py lines 253-257): no check. -/
def generateQuizValidate (_topic _count : String) : Option EarlyReject := none

/-- Validation phase of `text_to_pdf` (src/app.py lines 434-437): no check. -/
def textToPdfValidate (_htmlContent : String) : Option EarlyReject := none

/-- Validation phase of `make_ppt` (src/app.py lines 327-331): no check. -/
def makePptValidate (_topic _sourceText : String) (_hasTemplate : Bool) :
    Option EarlyReject := none

/-! ## Image format conversion (src/app.py lines 472-485)

Characters are modelled here by their code points (`Nat`), with the ASCII
case mapping that Python's `str.upper`/`str.lower` perform on ASCII
letters (the only characters relevant to format names such as "jpg",
"jpeg", "png"). -/

/-- ASCII upper-casing of one code point (97-122 map down by 32). -/
def upC (n : Nat) : Nat := if 97 ≤ n ∧ n ≤ 122 then n - 32 else n

/-- ASCII lower-casing of one code point (65-90 map up by 32). -/
def lowC (n : Nat) : Nat := if 65 ≤ n ∧ n ≤ 90 then n + 32 else n

/-- Python `s.upper()` on a code-point string. -/
def pyUpperCp (s : List Nat) : List Nat := s.map upC

/-- Python `s.lower()` on a code-point string. -/
def pyLowerCp (s : List Nat) : List Nat := s.map lowC

/-- Embedding of the format normalization of `convert_file` (src/app.py
lines 477-483): after upper-casing, "JPG" (74,80,71) and "JPEG"
(74,80,69,71) both become "JPEG" with an RGB conversion; every other
format string is kept as its upper-cased form. Returns the format string
used for saving together with the RGB-conversion flag. -/
def convertTargetCp (fmt : List Nat) : List Nat × Bool :=
  let f := pyUpperCp fmt
  if f = [74, 80, 71] ∨ f = [74, 80, 69, 71] then ([74, 80, 69, 71], true) else (f, false)

/-- The filename extension produced by `convert_file` (src/app.py line 481):
`fmt.lower()` of the normalized format. -/
def convertExtCp (fmt : List Nat) : List Nat := pyLowerCp (convertTargetCp fmt).1

/-! ## Python string scanning primitives (for `clean_ai_text` and `make_ppt`) -/

/-- The backtick character (code point 96). -/
def bt : Char := Char.ofNat 96

/-- Boolean prefix test on character lists (Python `str.startswith`). -/
def hasPfx : PyStr → PyStr → Bool
  | [], _ => true
  | _ :: _, [] => false
  | p :: ps, c :: cs => if p = c then hasPfx ps cs else false

/-- Boolean substring-occurrence test: does `pat` occur in the string? -/
def occursB (pat : PyStr) : PyStr → Bool
  | [] => hasPfx pat []
  | c :: rest => hasPfx pat (c :: rest) || occursB pat rest

/-- Fuel-indexed scanner for Python `str.replace(old, new)`: scan left to
right, replacing each non-overlapping occurrence of `old` and continuing
after the replaced text. The fuel starts at the string length, which is
sufficient for a non-empty `old` (each step consumes at least one
character); fuel exhaustion cannot occur on calls with non-empty `old`. -/
def replGo (old rep : PyStr) : Nat → PyStr → PyStr
  | 0, s => s
  | _ + 1, [] => []
  | f + 1, c :: rest =>
    if old ≠ [] ∧ hasPfx old (c :: rest) = true then
      rep ++ replGo old rep f (List.drop old.length (c :: rest))
    else
      c :: replGo old rep f rest

/-- Python `s.replace(old, rep)` for non-empty `old`. -/
def pyReplace (old rep s : PyStr) : PyStr := replGo old rep s.length s

/-- The whitespace class stripped by Python `str.strip()` (ASCII part). -/
def isSpace (c : Char) : Bool :=
  c == ' ' || c == '\t' || c == '\n' || c == '\r' || c == '\x0b' || c == '\x0c'

/-- Drop trailing whitespace. -/
def rdropW (s : PyStr) : PyStr := (s.reverse.dropWhile isSpace).reverse

/-- Python `s.strip()`: drop leading then trailing whitespace. -/
def pyStrip (s : PyStr) : PyStr := rdropW (s.dropWhile isSpace)

/-- Length of the leading run of backticks. -/
def lcnt : PyStr → Nat
  | [] => 0
  | c :: t => if c = bt then 1 + lcnt t else 0

/-- The bare code fence marker (three backticks) removed by `clean_ai_text`. -/
def fence : PyStr := [bt, bt, bt]

/-- The marker written as three backticks followed by "html" in the source. -/
def fenceHtml : PyStr := fence ++ ['h', 't', 'm', 'l']

/-- The marker written as three backticks followed by "json" in the source. -/
def fenceJson : PyStr := fence ++ ['j', 's', 'o', 'n']

/-- Embedding of `clean_ai_text` (src/app.py lines 74-77): `None` and the
empty string map to the empty string; otherwise remove the html fence, the
json fence and the bare fence (in that order, each via `str.replace`) and
strip surrounding whitespace. -/
def cleanAiText (text : Option PyStr) : PyStr :=
  match text with
  | none => []
  | some t =>
    if t = [] then []
    else pyStrip (pyReplace fence [] (pyReplace fenceJson [] (pyReplace fenceHtml [] t)))

/-- Python `s.split('\n')`: split at every newline, keeping empty pieces. -/
def splitNl : PyStr → List PyStr
  | [] => [[]]
  | c :: rest =>
    if c == '\n' then [] :: splitNl rest
    else
      match splitNl rest with
      | [] => [[c]]
      | l :: ls => (c :: l) :: ls

/-! ## Presentation outline parsing (src/app.py lines 327-388) -/

/-- The line marker for a new slide. -/
def slideMarker : PyStr := ['S', 'L', 'I', 'D', 'E', ':']

/-- The line marker for a bullet point. -/
def pointMarker : PyStr := ['P', 'O', 'I', 'N', 'T', ':']

/-- One generated slide: the layout index used for `add_slide`, the title
text, and the bullet paragraphs of the body placeholder, in order. -/
structure Slide where
  layout : Nat
  title : PyStr
  bullets : List PyStr
deriving DecidableEq

/-- The slide layout index chosen by `make_ppt` (src/app.py line 369):
index 1 when the deck has more than one layout, else index 0. -/
def layoutIdx (layoutCount : Nat) : Nat := if 1 < layoutCount then 1 else 0

/-- Title text of a (already stripped) `SLIDE:` line (src/app.py line 371):
`line.replace("SLIDE:", "").strip()`. -/
def slideTitle (line : PyStr) : PyStr := pyStrip (pyReplace slideMarker [] line)

/-- Bullet text of a (already stripped) `POINT:` line (src/app.py line 378):
`line.replace("POINT:", "").strip()`. -/
def pointText (line : PyStr) : PyStr := pyStrip (pyReplace pointMarker [] line)

/-- Append one bullet to a slide. -/
def addBullet (s : Slide) (b : PyStr) : Slide := ⟨s.layout, s.title, s.bullets ++ [b]⟩

/-- Append a bullet to the last slide of the list (the mutation performed on
the `slide` variable of the loop); on an empty list this is never reached
by the loop (the `and slide` guard) and returns the list unchanged. -/
def addBulletLast : List Slide → PyStr → List Slide
  | [], _ => []
  | [s], b => [addBullet s b]
  | s :: t :: rest, b => s :: addBulletLast (t :: rest) b

/-- Embedding of the line loop of `make_ppt` (src/app.py lines 365-380):
each line is stripped; a `SLIDE:` line appends a fresh slide; a `POINT:`
line appends a bullet to the most recent slide provided one exists; other
lines (and `POINT:` lines before any slide) are ignored. -/
def pptFold (layoutCount : Nat) : List Slide → List PyStr → List Slide
  | acc, [] => acc
  | acc, l :: ls =>
    if hasPfx slideMarker (pyStrip l) then
      pptFold layoutCount (acc ++ [⟨layoutIdx layoutCount, slideTitle (pyStrip l), []⟩]) ls
    else if hasPfx pointMarker (pyStrip l) && !acc.isEmpty then
      pptFold layoutCount (addBulletLast acc (pointText (pyStrip l))) ls
    else
      pptFold layoutCount acc ls

/-- The bullet texts of the `POINT:` lines before the next `SLIDE:` line.
This is the declarative reading of the spec: "appending a bulleted
paragraph per subsequent `POINT:` line until the next `SLIDE:` or end of
input". -/
def pointsUntilNextSlide (ls : List PyStr) : List PyStr :=
  ((ls.takeWhile fun l => !hasPfx slideMarker (pyStrip l)).filter
      fun l => hasPfx pointMarker (pyStrip l)).map
    fun l => pointText (pyStrip l)

/-- Declarative slide grouping, following the spec's wording: one slide per
`SLIDE:` line, carrying the `POINT:` bullets up to the next `SLIDE:` line;
lines before the first `SLIDE:` line produce nothing. -/
def pptSpec (layoutCount : Nat) : List PyStr → List Slide
  | [] => []
  | l :: ls =>
    if hasPfx slideMarker (pyStrip l) then
      ⟨layoutIdx layoutCount, slideTitle (pyStrip l), pointsUntilNextSlide ls⟩ ::
        pptSpec layoutCount ls
    else pptSpec layoutCount ls

/-- Outcome of the `make_ppt` handler: the JSON `success` flag, the slides
of the saved deck, and the staged template files still present afterwards. -/
structure PptOutcome where
  success : Bool
  slides : List Slide
  stagedLeft : List String
deriving DecidableEq

/-- Name standing for the `temp_{uuid}.pptx` staging file. -/
def tempTemplateName : String := "temp_template.pptx"

/-- Embedding of `make_ppt` (src/app.py lines 327-388) after template
loading: a staged template file exists iff an upload was supplied; the
`if not ai_text:` truthiness check (src/app.py line 358) fails both when
the completion is `None` and when it is the empty string — in either case
the handler removes the staged file and answers failure with no deck —
else it builds the slides from the cleaned outline and removes the staged
file at the end. -/
def makePptHandler (hasTemplate : Bool) (layoutCount : Nat) (aiText : Option PyStr) :
    PptOutcome :=
  let staged : List String := if hasTemplate then [tempTemplateName] else []
  match aiText with
  | none => ⟨false, [], staged.filter fun n => !(n == tempTemplateName)⟩
  | some t =>
    if t = [] then ⟨false, [], staged.filter fun n => !(n == tempTemplateName)⟩
    else
      ⟨true, pptFold layoutCount [] (splitNl (cleanAiText (some t))),
        staged.filter fun n => !(n == tempTemplateName)⟩

/-- The two-slide outline of the spec scenario:
"SLIDE: A / POINT: x / SLIDE: B / POINT: y" on four lines. -/
def pptScenario : PyStr := "SLIDE: A\nPOINT: x\nSLIDE: B\nPOINT: y".toList

/-! # Theorems -/

/-- Claim C1: every recognized usage category, incremented N times from the
zeroed counter map, holds the value N; an unrecognized key leaves the whole
counter map unchanged (and, the function being total, raises no error). -/
theorem increment_stat_spec (field : String) :
    (field ∈ statKeys → ∀ n : Nat, applyN (incrementStat field) n initStats field = n) ∧
    (field ∉ statKeys → ∀ g : String → Nat, incrementStat field g = g) := by
  constructor
  · intro hmem n
    have step : ∀ g : String → Nat, incrementStat field g field = g field + 1 := by
      intro g
      unfold incrementStat
      rw [if_pos hmem]
      simp
    induction n with
    | zero => rfl
    | succ n ih =>
      show incrementStat field (applyN (incrementStat field) n initStats) field = n + 1
      rw [step, ih]
  · intro hmem g
    unfold incrementStat
    rw [if_neg hmem]

/-- Witness for C1 at the recognized key "text_gen" (three increments) and
the unrecognized key "unknown_key". -/
theorem increment_stat_witness :
    applyN (incrementStat "text_gen") 3 initStats "text_gen" = 3 ∧
    incrementStat "unknown_key" initStats = initStats :=
  ⟨(increment_stat_spec "text_gen").1 (by decide) 3,
   (increment_stat_spec "unknown_key").2 (by decide) initStats⟩

/-- Claim C2: a fresh session is not admin; a login with both fields equal
to the configured credentials sets the flag (status 200); a later logout
clears it; a login with non-matching credentials answers 401 and leaves the
session value unchanged. -/
theorem auth_session_spec (adminUser adminPass u p : String) (s s2 : Option Bool) :
    checkAuth none = false ∧
    (loginR adminUser adminPass adminUser adminPass s).sess = some true ∧
    checkAuth (loginR adminUser adminPass adminUser adminPass s).sess = true ∧
    (loginR adminUser adminPass adminUser adminPass s).status = 200 ∧
    checkAuth (logoutR s2) = false ∧
    (¬(u = adminUser ∧ p = adminPass) →
      (loginR adminUser adminPass u p s).sess = s ∧
      (loginR adminUser adminPass u p s).success = false ∧
      (loginR adminUser adminPass u p s).status = 401) := by
  refine ⟨rfl, ?_, ?_, ?_, rfl, ?_⟩
  · simp [loginR]
  · simp [loginR, checkAuth]
  · simp [loginR]
  · intro h
    unfold loginR
    rw [if_neg h]
    exact ⟨rfl, rfl, rfl⟩

/-- Witness for C2 with the default credentials and a wrong password. -/
theorem auth_session_witness :
    (loginR "Admin" "admin123" "Admin" "admin123" none).sess = some true ∧
    (loginR "Admin" "admin123" "Admin" "wrong" none).sess = none ∧
    (loginR "Admin" "admin123" "Admin" "wrong" none).status = 401 :=
  ⟨(auth_session_spec "Admin" "admin123" "Admin" "wrong" none none).2.1,
   ((auth_session_spec "Admin" "admin123" "Admin" "wrong" none none).2.2.2.2.2
      (by decide)).1,
   ((auth_session_spec "Admin" "admin123" "Admin" "wrong" none none).2.2.2.2.2
      (by decide)).2.2⟩

/-- Claim C4 counterexample: with a null completion, `translate` responds
with the string "Error", not "AI Service Busy" as the claim states. -/
theorem translate_fallback_counterexample :
    (translateR none).body = "Error" ∧ (translateR none).body ≠ "AI Service Busy" :=
  ⟨rfl, by decide⟩

/-- Claim C4 amended: when the provider key is unset the completion is null,
and each pure-text handler answers HTTP 200 with `success = true` and its
fixed fallback text — "AI Service Busy" for generate-minutes,
generate-email and review-code, but "Error" for translate. -/
theorem text_fallback_amended (oracle : Option String) :
    getGroqResponse none oracle = none ∧
    generateMinutesR none = ⟨200, true, "AI Service Busy"⟩ ∧
    generateEmailR none = ⟨200, true, "AI Service Busy"⟩ ∧
    reviewCodeR none = ⟨200, true, "AI Service Busy"⟩ ∧
    translateR none = ⟨200, true, "Error"⟩ :=
  ⟨rfl, rfl, rfl, rfl, rfl⟩

/-- Claim C5 counterexample: a non-admin caller of `/api/stats` receives
the live usage counters, not zeroed ones — with one prior text_gen
operation the returned count is 1. -/
theorem stats_usage_counterexample :
    (getStatsR none (some 37) (some 52)
        (incrementStat "text_gen" initStats)).usage "text_gen" = 1 ∧
    (1 : Nat) ≠ 0 :=
  ⟨by decide, by decide⟩

/-- Claim C5 amended: for a session whose admin flag reads false,
`/api/stats` answers 200 with cpu 0 and ram 0 but with the current (live)
usage counters, and `/download-report` answers 401. -/
theorem stats_gate_amended (sess : Option Bool) (cpuS ramS : Option Nat)
    (u : String → Nat) (h : checkAuth sess = false) :
    getStatsR sess cpuS ramS u = ⟨200, 0, 0, u⟩ ∧
    downloadReportStatus sess = 401 := by
  have h' : sess.getD false = false := h
  unfold getStatsR downloadReportStatus
  rw [h']
  exact ⟨rfl, rfl⟩

/-- Witness for C5 (amended) at a fresh session. -/
theorem stats_gate_witness :
    getStatsR none (some 37) (some 52) initStats = ⟨200, 0, 0, initStats⟩ ∧
    downloadReportStatus none = 401 :=
  ⟨(stats_gate_amended none (some 37) (some 52) initStats rfl).1,
   (stats_gate_amended none (some 37) (some 52) initStats rfl).2⟩

/-- Claim C6: the stored chat history never exceeds 6 entries, is a suffix
of the appended history (the most recent turns), and after 4 exchanges from
an empty history it holds exactly the last 3 exchanges. -/
theorem chat_history_spec (history : List ChatMsg)
    (m r m1 r1 m2 r2 m3 r3 m4 r4 : String) :
    (chatStep history m r).length ≤ 6 ∧
    (∃ pre, history ++ [userMsg m, asstMsg r] = pre ++ chatStep history m r) ∧
    chatStep (chatStep (chatStep (chatStep [] m1 r1) m2 r2) m3 r3) m4 r4 =
      [userMsg m2, asstMsg r2, userMsg m3, asstMsg r3, userMsg m4, asstMsg r4] := by
  refine ⟨?_, ?_, rfl⟩
  · unfold chatStep
    by_cases hl : 6 < (history ++ [userMsg m, asstMsg r]).length
    · rw [if_pos hl, List.length_drop]
      omega
    · rw [if_neg hl]
      omega
  · unfold chatStep
    by_cases hl : 6 < (history ++ [userMsg m, asstMsg r]).length
    · rw [if_pos hl]
      exact ⟨_, (List.take_append_drop _ _).symm⟩
    · rw [if_neg hl]
      exact ⟨[], rfl⟩

/-- Claim C7: one sweep pass removes every regular file older than 1800
seconds whose deletion succeeds, keeps every file within the 1800 second
window, and a failed deletion is swallowed — the file simply remains and
the sweep still returns normally. -/
theorem cleanup_old_files_spec (delOk : String → Bool) (now : Int)
    (files : List FileInfo) (f : FileInfo) :
    (f ∈ files → f.isFile = true → 1800 < now - f.mtime → delOk f.name = true →
      f ∉ cleanupOldFiles delOk now files) ∧
    (f ∈ files → now - f.mtime ≤ 1800 → f ∈ cleanupOldFiles delOk now files) ∧
    (f ∈ files → delOk f.name = false → f ∈ cleanupOldFiles delOk now files) := by
  refine ⟨?_, ?_, ?_⟩
  · intro hmem hfile hold hok hcontra
    have hd : decide (1800 < now - f.mtime) = true := decide_eq_true hold
    rw [cleanupOldFiles, List.mem_filter] at hcontra
    simp [hfile, hok, hd] at hcontra
  · intro hmem hnew
    have hd : decide (1800 < now - f.mtime) = false := decide_eq_false (by omega)
    rw [cleanupOldFiles, List.mem_filter]
    exact ⟨hmem, by simp [hd]⟩
  · intro hmem hok
    rw [cleanupOldFiles, List.mem_filter]
    exact ⟨hmem, by simp [hok]⟩

/-- Witness for C7: an old file is removed, a recent one survives, and an
old file whose deletion fails survives too. -/
theorem cleanup_old_files_witness :
    (⟨"old.mp3", 0, true⟩ : FileInfo) ∉
      cleanupOldFiles (fun _ => true) 2000
        [⟨"old.mp3", 0, true⟩, ⟨"new.mp3", 1000, true⟩] ∧
    (⟨"new.mp3", 1000, true⟩ : FileInfo) ∈
      cleanupOldFiles (fun _ => true) 2000
        [⟨"old.mp3", 0, true⟩, ⟨"new.mp3", 1000, true⟩] ∧
    (⟨"stuck.mp3", 0, true⟩ : FileInfo) ∈
      cleanupOldFiles (fun _ => false) 2000 [⟨"stuck.mp3", 0, true⟩] :=
  ⟨(cleanup_old_files_spec _ _ _ _).1 (by decide) rfl (by decide) rfl,
   (cleanup_old_files_spec _ _ _ _).2.1 (by decide) (by decide),
   (cleanup_old_files_spec _ _ _ _).2.2 (by decide) rfl⟩

/-- Claim C9 counterexample: `generate_minutes` performs no validation — an
empty `notes` field is not rejected with 400; the handler proceeds to the
completion call. -/
theorem validation_counterexample :
    generateMinutesValidate "" = none ∧
    generateMinutesValidate "" ≠ some ⟨400, false⟩ :=
  ⟨rfl, by decide⟩

/-- Claim C9 amended: the handlers taking an uploaded file (audio-to-text,
video-to-audio, convert-file, compress-image) reject a missing file with
400, and chat and text-to-audio reject empty text with 400, all before any
downstream call; the remaining generation handlers (generate-minutes,
generate-email, review-code, translate, generate-quiz, text-to-pdf,
make-ppt) perform no such validation and proceed on empty input. -/
theorem validation_amended :
    chatValidate "" = some ⟨400, false⟩ ∧
    textToAudioValidate "" = some ⟨400, false⟩ ∧
    audioToTextValidate false = some ⟨400, false⟩ ∧
    videoToAudioValidate false = some ⟨400, false⟩ ∧
    convertFileValidate false = some ⟨400, false⟩ ∧
    compressImageValidate false = some ⟨400, false⟩ ∧
    chatValidate "hello" = none ∧
    audioToTextValidate true = none ∧
    generateMinutesValidate "" = none ∧
    generateEmailValidate "" "" = none ∧
    reviewCodeValidate "" = none ∧
    translateValidate "" "" = none ∧
    generateQuizValidate "" "" = none ∧
    textToPdfValidate "" = none ∧
    makePptValidate "" "" false = none := by
  decide

/-- ASCII case arithmetic: if lower-casing the upper-cased code point gives
a lowercase letter `d`, the upper-cased code point was `d - 32`. -/
lemma lowC_upC (a d : Nat) (h1 : 97 ≤ d) (h2 : d ≤ 122) (h : lowC (upC a) = d) :
    upC a = d - 32 := by
  unfold upC at h ⊢
  by_cases ha : 97 ≤ a ∧ a ≤ 122
  · rw [if_pos ha] at h ⊢
    unfold lowC at h
    by_cases hb : 65 ≤ a - 32 ∧ a - 32 ≤ 90
    · rw [if_pos hb] at h
      omega
    · rw [if_neg hb] at h
      omega
  · rw [if_neg ha] at h ⊢
    unfold lowC at h
    by_cases hb : 65 ≤ a ∧ a ≤ 90
    · rw [if_pos hb] at h
      omega
    · rw [if_neg hb] at h
      omega

/-- Claim C10: a requested format that upper-cases to "JPG" (74,80,71) or
"JPEG" (74,80,69,71) is saved as JPEG after an RGB conversion and gets the
extension "jpeg" (106,112,101,103); any other format gets the lower-cased
upper-cased request as extension and no RGB conversion; and the extension
is never "jpg" (106,112,103). -/
theorem convert_file_ext_spec (fmt : List Nat) :
    (pyUpperCp fmt = [74, 80, 71] ∨ pyUpperCp fmt = [74, 80, 69, 71] →
      convertExtCp fmt = [106, 112, 101, 103] ∧ (convertTargetCp fmt).2 = true) ∧
    (¬(pyUpperCp fmt = [74, 80, 71] ∨ pyUpperCp fmt = [74, 80, 69, 71]) →
      convertExtCp fmt = pyLowerCp (pyUpperCp fmt) ∧ (convertTargetCp fmt).2 = false) ∧
    convertExtCp fmt ≠ [106, 112, 103] := by
  refine ⟨?_, ?_, ?_⟩
  · intro h
    unfold convertExtCp convertTargetCp
    rw [if_pos h]
    exact ⟨rfl, rfl⟩
  · intro h
    unfold convertExtCp convertTargetCp
    rw [if_neg h]
    exact ⟨rfl, rfl⟩
  · by_cases h : pyUpperCp fmt = [74, 80, 71] ∨ pyUpperCp fmt = [74, 80, 69, 71]
    · unfold convertExtCp convertTargetCp
      rw [if_pos h]
      decide
    · unfold convertExtCp convertTargetCp
      rw [if_neg h]
      intro hcontra
      apply h
      left
      rcases fmt with - | ⟨a, - | ⟨b, - | ⟨c, - | ⟨d, t⟩⟩⟩⟩
      · simp [pyLowerCp, pyUpperCp] at hcontra
      · simp [pyLowerCp, pyUpperCp] at hcontra
      · simp [pyLowerCp, pyUpperCp] at hcontra
      · simp only [pyUpperCp, pyLowerCp, List.map_cons, List.map_nil,
          List.cons.injEq, and_true] at hcontra ⊢
        obtain ⟨e1, e2, e3⟩ := hcontra
        have g1 := lowC_upC a 106 (by omega) (by omega) e1
        have g2 := lowC_upC b 112 (by omega) (by omega) e2
        have g3 := lowC_upC c 103 (by omega) (by omega) e3
        exact ⟨by omega, by omega, by omega⟩
      · simp [pyLowerCp, pyUpperCp] at hcontra

/-- Witness for C10 at the mixed-case request "jPg" (106,80,103) and at
"PNG" (80,78,71). -/
theorem convert_file_ext_witness :
    convertExtCp [106, 80, 103] = [106, 112, 101, 103] ∧
    (convertTargetCp [106, 80, 103]).2 = true ∧
    convertExtCp [80, 78, 71] = [112, 110, 103] ∧
    (convertTargetCp [80, 78, 71]).2 = false :=
  ⟨((convert_file_ext_spec [106, 80, 103]).1 (by decide)).1,
   ((convert_file_ext_spec [106, 80, 103]).1 (by decide)).2,
   ((convert_file_ext_spec [80, 78, 71]).2.1 (by decide)).1,
   ((convert_file_ext_spec [80, 78, 71]).2.1 (by decide)).2⟩

/-! ## String-scanning lemmas for `clean_ai_text` (claim C3) -/

/-- Unfolding lemma: `hasPfx` on two cons cells. -/
lemma hasPfx_cons (a : Char) (ps : PyStr) (c : Char) (cs : PyStr) :
    hasPfx (a :: ps) (c :: cs) = if a = c then hasPfx ps cs else false := rfl

/-- Unfolding lemma: `occursB` on nil. -/
lemma occursB_nil (pat : PyStr) : occursB pat [] = hasPfx pat [] := rfl

/-- Unfolding lemma: `occursB` on a cons cell. -/
lemma occursB_cons (pat : PyStr) (c : Char) (rest : PyStr) :
    occursB pat (c :: rest) = (hasPfx pat (c :: rest) || occursB pat rest) := rfl

/-- The scanner ignores the amount of fuel as long as it is adequate. -/
lemma replGo_fuel (old rep : PyStr) :
    ∀ f g s, List.length s ≤ f → List.length s ≤ g →
      replGo old rep f s = replGo old rep g s := by
  intro f
  induction f with
  | zero =>
    intro g s hf _
    have hs : s = [] := List.length_eq_zero.mp (Nat.le_zero.mp hf)
    subst hs
    cases g <;> rfl
  | succ f ih =>
    intro g s hf hg
    cases s with
    | nil => cases g <;> rfl
    | cons c rest =>
      cases g with
      | zero => simp at hg
      | succ g =>
        show replGo old rep (f + 1) (c :: rest) = replGo old rep (g + 1) (c :: rest)
        simp only [replGo]
        by_cases hc : old ≠ [] ∧ hasPfx old (c :: rest) = true
        · rw [if_pos hc, if_pos hc]
          have hlen : 1 ≤ old.length := List.length_pos.mpr hc.1
          have hdrop : (List.drop old.length (c :: rest)).length ≤ rest.length := by
            rw [List.length_drop]
            simp only [List.length_cons]
            omega
          congr 1
          exact ih g (List.drop old.length (c :: rest))
            (by simp only [List.length_cons] at hf; omega)
            (by simp only [List.length_cons] at hg; omega)
        · rw [if_neg hc, if_neg hc]
          congr 1
          exact ih g rest
            (by simp only [List.length_cons] at hf; omega)
            (by simp only [List.length_cons] at hg; omega)

/-- Equation: `pyReplace` on nil. -/
lemma pyReplace_nil (old rep : PyStr) : pyReplace old rep [] = [] := rfl

/-- Equation: `pyReplace` on a cons cell — replace a leading occurrence and
continue after it, else keep the head and continue on the tail. -/
lemma pyReplace_cons (old rep : PyStr) (c : Char) (rest : PyStr) :
    pyReplace old rep (c :: rest) =
      if old ≠ [] ∧ hasPfx old (c :: rest) = true then
        rep ++ pyReplace old rep (List.drop old.length (c :: rest))
      else c :: pyReplace old rep rest := by
  show replGo old rep (rest.length + 1) (c :: rest) = _
  simp only [replGo]
  by_cases hc : old ≠ [] ∧ hasPfx old (c :: rest) = true
  · rw [if_pos hc, if_pos hc]
    congr 1
    have hlen : 1 ≤ old.length := List.length_pos.mpr hc.1
    apply replGo_fuel
    · rw [List.length_drop]
      simp only [List.length_cons]
      omega
    · exact le_rfl
  · rw [if_neg hc, if_neg hc]
    rfl

/-- A string with no occurrence of the (non-empty) pattern is left unchanged
by `pyReplace`. -/
lemma pyReplace_no_occ (pat rep : PyStr) :
    ∀ s, occursB pat s = false → pyReplace pat rep s = s := by
  intro s
  induction s with
  | nil => intro _; rfl
  | cons c rest ih =>
    intro h
    rw [occursB_cons, Bool.or_eq_false_iff] at h
    rw [pyReplace_cons, if_neg (fun hc => by rw [hc.2] at h; exact absurd h.1 (by simp)),
      ih h.2]

/-- If a longer pattern `p ++ q` is a prefix, so is `p`. -/
lemma hasPfx_append_pat (p q : PyStr) :
    ∀ s, hasPfx (p ++ q) s = true → hasPfx p s = true := by
  induction p with
  | nil => intro s _; rfl
  | cons a ps ih =>
    intro s h
    cases s with
    | nil => simp [hasPfx] at h
    | cons c cs =>
      rw [List.cons_append, hasPfx_cons] at h
      rw [hasPfx_cons]
      by_cases hac : a = c
      · rw [if_pos hac] at h ⊢
        exact ih cs h
      · rw [if_neg hac] at h
        exact absurd h (by simp)

/-- If a longer pattern `p ++ q` occurs, so does `p`. -/
lemma occursB_mono_pat (p q : PyStr) :
    ∀ s, occursB (p ++ q) s = true → occursB p s = true := by
  intro s
  induction s with
  | nil =>
    intro h
    rw [occursB_nil] at h ⊢
    exact hasPfx_append_pat p q [] h
  | cons c rest ih =>
    intro h
    rw [occursB_cons, Bool.or_eq_true] at h ⊢
    cases h with
    | inl h => exact Or.inl (hasPfx_append_pat p q _ h)
    | inr h => exact Or.inr (ih h)

/-- Contrapositive form: no occurrence of `p` rules out occurrences of any
extension `p ++ q`. -/
lemma occursB_false_of_pat_append (p q s : PyStr) (h : occursB p s = false) :
    occursB (p ++ q) s = false := by
  cases hh : occursB (p ++ q) s with
  | false => rfl
  | true =>
    rw [occursB_mono_pat p q s hh] at h
    simp at h

/-- A prefix of `t` is still a prefix of `t ++ b`. -/
lemma hasPfx_append_str (p : PyStr) :
    ∀ t b, hasPfx p t = true → hasPfx p (t ++ b) = true := by
  induction p with
  | nil => intro t b _; rfl
  | cons a ps ih =>
    intro t b h
    cases t with
    | nil => simp [hasPfx] at h
    | cons c cs =>
      rw [hasPfx_cons] at h
      rw [List.cons_append, hasPfx_cons]
      by_cases hac : a = c
      · rw [if_pos hac] at h ⊢
        exact ih cs b h
      · rw [if_neg hac] at h
        exact absurd h (by simp)

/-- An occurrence in `t` is an occurrence in `t ++ b`. -/
lemma occursB_append_right (p : PyStr) :
    ∀ t b, occursB p t = true → occursB p (t ++ b) = true := by
  intro t
  induction t with
  | nil =>
    intro b h
    rw [occursB_nil] at h
    cases p with
    | nil =>
      cases b with
      | nil => rfl
      | cons c cs => rw [List.nil_append, occursB_cons]; simp [hasPfx]
    | cons a ps => simp [hasPfx] at h
  | cons c cs ih =>
    intro b h
    rw [occursB_cons, Bool.or_eq_true] at h
    rw [List.cons_append, occursB_cons, Bool.or_eq_true]
    cases h with
    | inl h =>
      rw [← List.cons_append]
      exact Or.inl (hasPfx_append_str p (c :: cs) b h)
    | inr h => exact Or.inr (ih b h)

/-- An occurrence in `u` is an occurrence in `a ++ u`. -/
lemma occursB_append_left (p : PyStr) :
    ∀ a u, occursB p u = true → occursB p (a ++ u) = true := by
  intro a
  induction a with
  | nil => intro u h; exact h
  | cons c cs ih =>
    intro u h
    rw [List.cons_append, occursB_cons, Bool.or_eq_true]
    exact Or.inr (ih u h)

/-- No occurrence in a string rules out occurrences in any middle segment. -/
lemma occursB_sub_false (p a t b : PyStr) (h : occursB p (a ++ t ++ b) = false) :
    occursB p t = false := by
  by_contra hc
  rw [Bool.not_eq_false] at hc
  have hocc := occursB_append_left p a (t ++ b) (occursB_append_right p t b hc)
  rw [← List.append_assoc] at hocc
  rw [hocc] at h
  exact absurd h (by simp)

/-- Unfolding: leading backtick count of a cons headed by a backtick. -/
lemma lcnt_cons_bt (t : PyStr) : lcnt (bt :: t) = 1 + lcnt t := by
  simp [lcnt]

/-- Unfolding: leading backtick count of a cons headed by a non-backtick. -/
lemma lcnt_cons_ne (c : Char) (t : PyStr) (h : c ≠ bt) : lcnt (c :: t) = 0 := by
  simp [lcnt, h]

/-- A run of `k` backticks is a prefix exactly when the leading backtick run
has length at least `k`. -/
lemma hasPfx_replicate_bt :
    ∀ (k : Nat) (t : PyStr), hasPfx (List.replicate k bt) t = true ↔ k ≤ lcnt t := by
  intro k
  induction k with
  | zero => intro t; simp [List.replicate, hasPfx]
  | succ k ih =>
    intro t
    cases t with
    | nil =>
      simp only [List.replicate, hasPfx]
      constructor
      · intro h; exact absurd h (by simp)
      · intro h; simp [lcnt] at h
    | cons c cs =>
      rw [List.replicate, hasPfx_cons]
      by_cases hc : bt = c
      · rw [if_pos hc, ← hc, lcnt_cons_bt, ih cs]
        omega
      · rw [if_neg hc, lcnt_cons_ne c cs (fun hh => hc hh.symm)]
        constructor
        · intro h; exact absurd h (by simp)
        · intro h; omega

/-- The fence marker is a run of three backticks. -/
lemma fence_replicate : fence = List.replicate 3 bt := rfl

/-- Key lemma for C3: after `pyReplace fence []`, the leading backtick run
has length `lcnt s % 3`, and no three consecutive backticks occur anywhere
in the result. Proved by strong induction on the string length. -/
lemma repl_fence_main :
    ∀ (n : Nat) (s : PyStr), List.length s ≤ n →
      lcnt (pyReplace fence [] s) = lcnt s % 3 ∧
      occursB fence (pyReplace fence [] s) = false := by
  intro n
  induction n with
  | zero =>
    intro s hs
    have h0 : s = [] := List.length_eq_zero.mp (Nat.le_zero.mp hs)
    subst h0
    exact ⟨rfl, rfl⟩
  | succ n ih =>
    intro s hs
    by_cases hp : hasPfx fence s = true
    · obtain ⟨s', rfl⟩ : ∃ s', s = bt :: bt :: bt :: s' := by
        cases s with
        | nil => simp [fence, hasPfx] at hp
        | cons c1 t1 =>
          rw [show fence = bt :: bt :: bt :: [] from rfl, hasPfx_cons] at hp
          by_cases h1 : bt = c1
          · rw [if_pos h1] at hp
            cases t1 with
            | nil => simp [hasPfx] at hp
            | cons c2 t2 =>
              rw [hasPfx_cons] at hp
              by_cases h2 : bt = c2
              · rw [if_pos h2] at hp
                cases t2 with
                | nil => simp [hasPfx] at hp
                | cons c3 t3 =>
                  rw [hasPfx_cons] at hp
                  by_cases h3 : bt = c3
                  · exact ⟨t3, by rw [← h1, ← h2, ← h3]⟩
                  · rw [if_neg h3] at hp
                    exact absurd hp (by simp)
              · rw [if_neg h2] at hp
                exact absurd hp (by simp)
          · rw [if_neg h1] at hp
            exact absurd hp (by simp)
      have hrw : pyReplace fence [] (bt :: bt :: bt :: s') = pyReplace fence [] s' := by
        rw [pyReplace_cons, if_pos ⟨by simp [fence], hp⟩]
        simp [fence]
      have hlen : List.length s' ≤ n := by
        simp only [List.length_cons] at hs
        omega
      have hmain := ih s' hlen
      constructor
      · rw [hrw, hmain.1, lcnt_cons_bt, lcnt_cons_bt, lcnt_cons_bt]
        omega
      · rw [hrw]
        exact hmain.2
    · cases s with
      | nil => exact ⟨rfl, rfl⟩
      | cons c rest =>
        have hlen : List.length rest ≤ n := by
          simp only [List.length_cons] at hs
          omega
        have hmain := ih rest hlen
        have hrw : pyReplace fence [] (c :: rest) = c :: pyReplace fence [] rest := by
          rw [pyReplace_cons, if_neg]
          intro hcc
          exact hp hcc.2
        rw [hrw]
        by_cases hc : c = bt
        · subst hc
          have h3 : ¬ 3 ≤ lcnt (bt :: rest) := by
            intro hge
            have := (hasPfx_replicate_bt 3 (bt :: rest)).mpr hge
            rw [← fence_replicate] at this
            exact hp this
          rw [lcnt_cons_bt] at h3
          have hr1 : lcnt rest ≤ 1 := by omega
          have hout : lcnt (pyReplace fence [] rest) ≤ 1 := by
            rw [hmain.1]
            omega
          constructor
          · rw [lcnt_cons_bt, lcnt_cons_bt, hmain.1]
            omega
          · rw [occursB_cons, Bool.or_eq_false_iff]
            refine ⟨?_, hmain.2⟩
            cases hh : hasPfx fence (bt :: pyReplace fence [] rest) with
            | false => rfl
            | true =>
              exfalso
              have hge := (hasPfx_replicate_bt 3 (bt :: pyReplace fence [] rest)).mp
                (by rw [← fence_replicate]; exact hh)
              rw [lcnt_cons_bt] at hge
              omega
        · constructor
          · rw [lcnt_cons_ne c _ hc, lcnt_cons_ne c _ hc]
          · rw [occursB_cons, Bool.or_eq_false_iff]
            refine ⟨?_, hmain.2⟩
            rw [show fence = bt :: bt :: bt :: [] from rfl, hasPfx_cons,
              if_neg (fun hh => hc hh.symm)]

/-- `dropWhile` is idempotent. -/
lemma dropWhile_idem (q : Char → Bool) :
    ∀ l : PyStr, List.dropWhile q (List.dropWhile q l) = List.dropWhile q l := by
  intro l
  induction l with
  | nil => rfl
  | cons c cs ih =>
    by_cases hq : q c = true
    · rw [List.dropWhile_cons_of_pos hq]
      exact ih
    · rw [List.dropWhile_cons_of_neg hq, List.dropWhile_cons_of_neg hq]

/-- `dropWhile` never lengthens a list. -/
lemma dropWhile_length_le (q : Char → Bool) :
    ∀ l : PyStr, (List.dropWhile q l).length ≤ l.length := by
  intro l
  induction l with
  | nil => exact le_rfl
  | cons c cs ih =>
    by_cases hq : q c = true
    · rw [List.dropWhile_cons_of_pos hq]
      simp only [List.length_cons]
      omega
    · rw [List.dropWhile_cons_of_neg hq]

/-- Dropping trailing whitespace yields a prefix of the original string. -/
lemma rdropW_decomp (t : PyStr) : ∃ b, t = rdropW t ++ b := by
  refine ⟨(t.reverse.takeWhile isSpace).reverse, ?_⟩
  show t = (t.reverse.dropWhile isSpace).reverse ++ (t.reverse.takeWhile isSpace).reverse
  rw [← List.reverse_append, List.takeWhile_append_dropWhile, List.reverse_reverse]

/-- `rdropW` is idempotent. -/
lemma rdropW_idem (t : PyStr) : rdropW (rdropW t) = rdropW t := by
  unfold rdropW
  rw [List.reverse_reverse, dropWhile_idem]

/-- If a string has no leading whitespace, neither has it after dropping
trailing whitespace. -/
lemma dropWhile_rdropW (t : PyStr) (h : List.dropWhile isSpace t = t) :
    List.dropWhile isSpace (rdropW t) = rdropW t := by
  obtain ⟨b, hb⟩ := rdropW_decomp t
  cases hr : rdropW t with
  | nil => rfl
  | cons c u =>
    rw [hr] at hb
    have hc : isSpace c = false := by
      by_contra hcc
      rw [Bool.not_eq_false] at hcc
      rw [hb, List.cons_append, List.dropWhile_cons_of_pos hcc] at h
      have hlen := congrArg List.length h
      have hle := dropWhile_length_le isSpace (u ++ b)
      simp only [List.length_cons] at hlen
      omega
    rw [List.dropWhile_cons_of_neg (by simp [hc])]

/-- `pyStrip` is idempotent. -/
lemma pyStrip_idem (s : PyStr) : pyStrip (pyStrip s) = pyStrip s := by
  unfold pyStrip
  rw [dropWhile_rdropW _ (dropWhile_idem isSpace s)]
  exact rdropW_idem _

/-- The stripped string is a middle segment of the original string. -/
lemma pyStrip_decomp (s : PyStr) : ∃ a b, s = a ++ pyStrip s ++ b := by
  obtain ⟨b, hb⟩ := rdropW_decomp (s.dropWhile isSpace)
  refine ⟨s.takeWhile isSpace, b, ?_⟩
  show s = s.takeWhile isSpace ++ rdropW (s.dropWhile isSpace) ++ b
  calc s = s.takeWhile isSpace ++ s.dropWhile isSpace :=
        (List.takeWhile_append_dropWhile isSpace s).symm
    _ = s.takeWhile isSpace ++ (rdropW (s.dropWhile isSpace) ++ b) := by rw [← hb]
    _ = s.takeWhile isSpace ++ rdropW (s.dropWhile isSpace) ++ b := by
        rw [List.append_assoc]

/-- Stripping cannot create an occurrence of a pattern. -/
lemma occursB_pyStrip (p s : PyStr) (h : occursB p s = false) :
    occursB p (pyStrip s) = false := by
  obtain ⟨a, b, hab⟩ := pyStrip_decomp s
  rw [hab] at h
  exact occursB_sub_false p a _ b h

/-- Unfolding lemma for `cleanAiText` on a non-empty string. -/
lemma cleanAiText_some (t : PyStr) (ht : t ≠ []) :
    cleanAiText (some t) =
      pyStrip (pyReplace fence [] (pyReplace fenceJson [] (pyReplace fenceHtml [] t))) := by
  have hdef : cleanAiText (some t) =
      if t = [] then []
      else pyStrip (pyReplace fence [] (pyReplace fenceJson [] (pyReplace fenceHtml [] t))) :=
    rfl
  rw [hdef, if_neg ht]

/-- The output of `cleanAiText` never contains three consecutive backticks. -/
lemma cleanAiText_no_fence (x : Option PyStr) : occursB fence (cleanAiText x) = false := by
  match x with
  | none => rfl
  | some t =>
    by_cases ht : t = []
    · subst ht
      rfl
    · rw [cleanAiText_some t ht]
      apply occursB_pyStrip
      exact (repl_fence_main _ _ le_rfl).2

/-- Claim C3: `clean_ai_text` leaves no occurrence of any of the three fence
markers in its output, returns output that carries no surrounding
whitespace, maps null and the empty string to the empty string, and is
idempotent. -/
theorem clean_ai_text_spec (x : Option PyStr) :
    occursB fenceHtml (cleanAiText x) = false ∧
    occursB fenceJson (cleanAiText x) = false ∧
    occursB fence (cleanAiText x) = false ∧
    pyStrip (cleanAiText x) = cleanAiText x ∧
    cleanAiText none = [] ∧
    cleanAiText (some []) = [] ∧
    cleanAiText (some (cleanAiText x)) = cleanAiText x := by
  have hf : occursB fence (cleanAiText x) = false := cleanAiText_no_fence x
  have hh : occursB fenceHtml (cleanAiText x) = false :=
    occursB_false_of_pat_append fence _ _ hf
  have hj : occursB fenceJson (cleanAiText x) = false :=
    occursB_false_of_pat_append fence _ _ hf
  have hstrip : pyStrip (cleanAiText x) = cleanAiText x := by
    match x with
    | none => rfl
    | some t =>
      by_cases ht : t = []
      · subst ht
        rfl
      · rw [cleanAiText_some t ht]
        exact pyStrip_idem _
  refine ⟨hh, hj, hf, hstrip, rfl, rfl, ?_⟩
  by_cases hy : cleanAiText x = []
  · rw [hy]
    rfl
  · rw [cleanAiText_some _ hy, pyReplace_no_occ fenceHtml [] _ hh,
      pyReplace_no_occ fenceJson [] _ hj, pyReplace_no_occ fence [] _ hf]
    exact hstrip

/-! ## Outline-parsing lemmas for `make_ppt` (claim C8) -/

/-- Equation: the loop on an empty line list returns the accumulator. -/
lemma pptFold_nil (n : Nat) (acc : List Slide) : pptFold n acc [] = acc := rfl

/-- Equation: one step of the loop. -/
lemma pptFold_cons (n : Nat) (acc : List Slide) (l : PyStr) (ls : List PyStr) :
    pptFold n acc (l :: ls) =
      if hasPfx slideMarker (pyStrip l) then
        pptFold n (acc ++ [⟨layoutIdx n, slideTitle (pyStrip l), []⟩]) ls
      else if hasPfx pointMarker (pyStrip l) && !acc.isEmpty then
        pptFold n (addBulletLast acc (pointText (pyStrip l))) ls
      else pptFold n acc ls := rfl

/-- Equation: one step of the declarative grouping. -/
lemma pptSpec_cons (n : Nat) (l : PyStr) (ls : List PyStr) :
    pptSpec n (l :: ls) =
      if hasPfx slideMarker (pyStrip l) then
        (⟨layoutIdx n, slideTitle (pyStrip l), pointsUntilNextSlide ls⟩ : Slide) ::
          pptSpec n ls
      else pptSpec n ls := rfl

/-- The bullet collection stops at a `SLIDE:` line. -/
lemma pts_cons_slide (l : PyStr) (ls : List PyStr)
    (h : hasPfx slideMarker (pyStrip l) = true) :
    pointsUntilNextSlide (l :: ls) = [] := by
  unfold pointsUntilNextSlide
  rw [List.takeWhile_cons_of_neg (by simp [h])]
  rfl

/-- The bullet collection picks up a `POINT:` line. -/
lemma pts_cons_point (l : PyStr) (ls : List PyStr)
    (h1 : hasPfx slideMarker (pyStrip l) = false)
    (h2 : hasPfx pointMarker (pyStrip l) = true) :
    pointsUntilNextSlide (l :: ls) =
      pointText (pyStrip l) :: pointsUntilNextSlide ls := by
  unfold pointsUntilNextSlide
  rw [List.takeWhile_cons_of_pos (by simp [h1]), List.filter_cons_of_pos (by simp [h2]),
    List.map_cons]

/-- The bullet collection skips any other line. -/
lemma pts_cons_other (l : PyStr) (ls : List PyStr)
    (h1 : hasPfx slideMarker (pyStrip l) = false)
    (h2 : hasPfx pointMarker (pyStrip l) = false) :
    pointsUntilNextSlide (l :: ls) = pointsUntilNextSlide ls := by
  unfold pointsUntilNextSlide
  rw [List.takeWhile_cons_of_pos (by simp [h1]), List.filter_cons_of_neg (by simp [h2])]

/-- Appending a bullet to the last slide distributes over a snoc list. -/
lemma addBulletLast_append (a : List Slide) (s : Slide) (b : PyStr) :
    addBulletLast (a ++ [s]) b = a ++ [addBullet s b] := by
  induction a with
  | nil => rfl
  | cons x xs ih =>
    cases xs with
    | nil => rfl
    | cons y ys =>
      show x :: addBulletLast ((y :: ys) ++ [s]) b = x :: ((y :: ys) ++ [addBullet s b])
      rw [ih]

/-- The loop only ever touches the last slide: a non-empty accumulator can be
split off. -/
lemma pptFold_shift (n : Nat) :
    ∀ (lines : List PyStr) (a : List Slide) (s : Slide),
      pptFold n (a ++ [s]) lines = a ++ pptFold n [s] lines := by
  intro lines
  induction lines with
  | nil => intro a s; rfl
  | cons l ls ih =>
    intro a s
    rw [pptFold_cons, pptFold_cons]
    by_cases h1 : hasPfx slideMarker (pyStrip l) = true
    · rw [if_pos h1, if_pos h1]
      rw [ih (a ++ [s]) ⟨layoutIdx n, slideTitle (pyStrip l), []⟩,
        ih [s] ⟨layoutIdx n, slideTitle (pyStrip l), []⟩]
      rw [List.append_assoc]
    · rw [if_neg h1, if_neg h1]
      have hc1 : (hasPfx pointMarker (pyStrip l) && !(a ++ [s]).isEmpty)
          = hasPfx pointMarker (pyStrip l) := by
        have : (a ++ [s]).isEmpty = false := by cases a <;> rfl
        rw [this]
        simp
      have hc2 : (hasPfx pointMarker (pyStrip l) && !([s] : List Slide).isEmpty)
          = hasPfx pointMarker (pyStrip l) := by simp
      rw [hc1, hc2]
      by_cases h2 : hasPfx pointMarker (pyStrip l) = true
      · rw [if_pos h2, if_pos h2, addBulletLast_append,
          ih a (addBullet s (pointText (pyStrip l)))]
        rfl
      · rw [if_neg h2, if_neg h2]
        exact ih a s

/-- Running the loop from a single slide: that slide collects exactly the
bullets up to the next `SLIDE:` line, and the rest of the lines group as in
the declarative spec. -/
lemma pptFold_single (n : Nat) :
    ∀ (ls : List PyStr) (s : Slide),
      pptFold n [s] ls =
        (⟨s.layout, s.title, s.bullets ++ pointsUntilNextSlide ls⟩ : Slide) ::
          pptSpec n ls := by
  intro ls
  induction ls with
  | nil =>
    intro s
    show [s] = [⟨s.layout, s.title, s.bullets ++ pointsUntilNextSlide []⟩]
    rw [show pointsUntilNextSlide [] = [] from rfl, List.append_nil]
  | cons l ls ih =>
    intro s
    rw [pptFold_cons]
    by_cases h1 : hasPfx slideMarker (pyStrip l) = true
    · rw [if_pos h1, pptFold_shift,
        ih ⟨layoutIdx n, slideTitle (pyStrip l), []⟩,
        pts_cons_slide l ls h1, pptSpec_cons, if_pos h1, List.append_nil]
      rfl
    · have h1' : hasPfx slideMarker (pyStrip l) = false := by
        cases hx : hasPfx slideMarker (pyStrip l)
        · rfl
        · exact absurd hx h1
      rw [if_neg h1]
      have hc2 : (hasPfx pointMarker (pyStrip l) && !([s] : List Slide).isEmpty)
          = hasPfx pointMarker (pyStrip l) := by simp
      rw [hc2]
      by_cases h2 : hasPfx pointMarker (pyStrip l) = true
      · rw [if_pos h2,
          show addBulletLast [s] (pointText (pyStrip l))
            = [addBullet s (pointText (pyStrip l))] from rfl,
          ih (addBullet s (pointText (pyStrip l))),
          pts_cons_point l ls h1' h2, pptSpec_cons, if_neg h1]
        show (⟨s.layout, s.title, (s.bullets ++ [pointText (pyStrip l)])
            ++ pointsUntilNextSlide ls⟩ : Slide) :: pptSpec n ls = _
        rw [List.append_assoc]
        rfl
      · have h2' : hasPfx pointMarker (pyStrip l) = false := by
          cases hx : hasPfx pointMarker (pyStrip l)
          · rfl
          · exact absurd hx h2
        rw [if_neg h2, ih s, pts_cons_other l ls h1' h2', pptSpec_cons, if_neg h1]

/-- The imperative loop of `make_ppt`, started on the empty deck, computes
exactly the declarative grouping of the spec. -/
lemma pptFold_spec (n : Nat) : ∀ lines, pptFold n [] lines = pptSpec n lines := by
  intro lines
  induction lines with
  | nil => rfl
  | cons l ls ih =>
    rw [pptFold_cons, pptSpec_cons]
    by_cases h1 : hasPfx slideMarker (pyStrip l) = true
    · rw [if_pos h1, if_pos h1,
        show ([] : List Slide) ++ [(⟨layoutIdx n, slideTitle (pyStrip l), []⟩ : Slide)]
          = [(⟨layoutIdx n, slideTitle (pyStrip l), []⟩ : Slide)] from rfl,
        pptFold_single n ls]
      rfl
    · rw [if_neg h1, if_neg h1]
      have hfalse : (hasPfx pointMarker (pyStrip l) && !([] : List Slide).isEmpty)
          = false := by simp
      rw [hfalse, if_neg (by simp)]
      exact ih

/-- Every slide produced by the grouping uses the chosen layout index. -/
lemma pptSpec_layout (n : Nat) :
    ∀ lines, (pptSpec n lines).all (fun s => s.layout == layoutIdx n) = true := by
  intro lines
  induction lines with
  | nil => rfl
  | cons l ls ih =>
    rw [pptSpec_cons]
    by_cases h1 : hasPfx slideMarker (pyStrip l) = true
    · rw [if_pos h1, List.all_cons]
      simp [ih]
    · rw [if_neg h1]
      exact ih

/-- Unfolding lemma: on a truthy (non-empty) completion the handler takes
the success path. -/
lemma makePptHandler_some (hasTemplate : Bool) (n : Nat) (t : PyStr) (ht : t ≠ []) :
    makePptHandler hasTemplate n (some t) =
      ⟨true, pptFold n [] (splitNl (cleanAiText (some t))),
        (if hasTemplate then [tempTemplateName] else []).filter
          fun m => !(m == tempTemplateName)⟩ := by
  have hdef : makePptHandler hasTemplate n (some t) =
      if t = [] then
        ⟨false, [],
          (if hasTemplate then [tempTemplateName] else []).filter
            fun m => !(m == tempTemplateName)⟩
      else
        ⟨true, pptFold n [] (splitNl (cleanAiText (some t))),
          (if hasTemplate then [tempTemplateName] else []).filter
            fun m => !(m == tempTemplateName)⟩ := rfl
  rw [hdef, if_neg ht]

/-- Removing the staged template name from the staged list leaves nothing,
whether or not a template was uploaded. -/
lemma staged_filter_nil (hasTemplate : Bool) :
    (if hasTemplate then [tempTemplateName] else []).filter
      (fun m => !(m == tempTemplateName)) = [] := by
  cases hasTemplate <;> rfl

/-- Claim C8: on a truthy (non-empty) completion, `make_ppt` produces
exactly the declarative grouping of the outline — one slide per `SLIDE:`
line carrying the `POINT:` bullets up to the next `SLIDE:` line, `POINT:`
lines before the first slide dropped — every slide using layout index 1
when the deck has more than one layout and 0 otherwise; a `None` or empty
completion fails (the `if not ai_text:` truthiness check) and builds no
deck; the staged template file is gone after the failure paths and the
success path alike; and the spec's two-slide scenario yields exactly the
two expected slides with one bullet each. -/
theorem make_ppt_spec (hasTemplate : Bool) (n : Nat) (t : PyStr) :
    (t ≠ [] →
      (makePptHandler hasTemplate n (some t)).slides =
          pptSpec n (splitNl (cleanAiText (some t))) ∧
        (makePptHandler hasTemplate n (some t)).success = true ∧
        ((makePptHandler hasTemplate n (some t)).slides.all
            fun s => s.layout == layoutIdx n) = true) ∧
    (makePptHandler hasTemplate n none).success = false ∧
    (makePptHandler hasTemplate n none).slides = [] ∧
    (makePptHandler hasTemplate n (some [])).success = false ∧
    (makePptHandler hasTemplate n (some [])).slides = [] ∧
    (makePptHandler hasTemplate n none).stagedLeft = [] ∧
    (makePptHandler hasTemplate n (some t)).stagedLeft = [] ∧
    (makePptHandler false 11 (some pptScenario)).slides =
      [⟨1, ['A'], [['x']]⟩, ⟨1, ['B'], [['y']]⟩] := by
  refine ⟨?_, ?_, ?_, ?_, ?_, ?_, ?_, ?_⟩
  · intro ht
    rw [makePptHandler_some hasTemplate n t ht]
    refine ⟨?_, rfl, ?_⟩
    · show pptFold n [] (splitNl (cleanAiText (some t))) = _
      exact pptFold_spec n _
    · show (pptFold n [] (splitNl (cleanAiText (some t)))).all _ = true
      rw [pptFold_spec n]
      exact pptSpec_layout n _
  · cases hasTemplate <;> rfl
  · cases hasTemplate <;> rfl
  · cases hasTemplate <;> rfl
  · cases hasTemplate <;> rfl
  · cases hasTemplate <;> rfl
  · by_cases ht : t = []
    · subst ht
      cases hasTemplate <;> rfl
    · rw [makePptHandler_some hasTemplate n t ht]
      exact staged_filter_nil hasTemplate
  · decide

/-- Witness for C8 at the spec's concrete two-slide outline, which is
non-empty and so takes the success path. -/
theorem make_ppt_witness :
    (makePptHandler false 11 (some pptScenario)).slides =
      pptSpec 11 (splitNl (cleanAiText (some pptScenario))) ∧
    (makePptHandler false 11 (some pptScenario)).success = true :=
  ⟨((make_ppt_spec false 11 pptScenario).1 (by decide)).1,
   ((make_ppt_spec false 11 pptScenario).1 (by decide)).2.1⟩
